import Mathlib

/-!
Verification of the Terminal_Cubing timer and list model.

Shallow embedding of the core of `src/main.rs` (and the duplicated timer
formatting in `src/ui.rs`): the `StatefulList` cyclic selection model, the
`App` timer state machine (`space`, `update_timer`), the scheduler loop of
`run_app` as a step function over key events and tick boundaries, and the
central-timer formatting of the `ui` function.

Rust `usize` subtraction panics on underflow (debug semantics); the
embedding follows the Aeneas convention and models the fallible list
operations with `Option`, returning `none` exactly where the Rust code
would panic. `i32 time` is modelled as `Int` and `u32 ticks_with_no_key`
as `Nat`: in the code `ticks_with_no_key` is reset as soon as it exceeds
60, and `time` stays far from the `i32` bounds on every run considered
here, so integer wraparound never matters.
-/

/-- Embeds `StatefulList<T>` from `src/main.rs`: `state` models
`ListState::selected()` (the only part of `ListState` the core logic
reads or writes), `items` the item vector. -/
structure StatefulList (α : Type) where
  state : Option Nat
  items : List α
  deriving DecidableEq, Repr

namespace StatefulList

/-- Rust `StatefulList::with_items` (main.rs lines 34-39): fresh list, no selection. -/
def with_items {α : Type} (items : List α) : StatefulList α :=
  { state := none, items := items }

/-- Rust `StatefulList::next` (main.rs lines 41-53). In the `Some i` branch the
Rust code evaluates `self.items.len() - 1`, a `usize` subtraction that
panics when `items` is empty; that panic is `none` here. -/
def next {α : Type} (l : StatefulList α) : Option (StatefulList α) :=
  match l.state with
  | some i =>
    if l.items.length = 0 then none
    else if i ≥ l.items.length - 1 then some { l with state := some 0 }
    else some { l with state := some (i + 1) }
  | none => some { l with state := some 0 }

/-- Rust `StatefulList::previous` (main.rs lines 55-67). `self.items.len() - 1`
is evaluated only in the `i == 0` branch and panics when `items` is empty. -/
def previous {α : Type} (l : StatefulList α) : Option (StatefulList α) :=
  match l.state with
  | some i =>
    if i = 0 then
      if l.items.length = 0 then none
      else some { l with state := some (l.items.length - 1) }
    else some { l with state := some (i - 1) }
  | none => some { l with state := some 0 }

/-- Rust `StatefulList::unselect` (main.rs lines 69-71). -/
def unselect {α : Type} (l : StatefulList α) : StatefulList α :=
  { l with state := none }

end StatefulList

/-- Rust `TimerStatus` from `src/main.rs` lines 27-31. -/
inductive TimerStatus where
  | COUNTDOWN
  | COUNTUP
  | PAUSED
  deriving DecidableEq, Repr

/-- Rust `App` from `src/main.rs` lines 80-86 (the borrowed string slices become
`String`; the 26-entry keybind array becomes a list). -/
structure App where
  items : StatefulList (String × Nat)
  keybinds : List (String × String)
  time : Int
  timing_status : TimerStatus
  ticks_with_no_key : Nat
  deriving DecidableEq, Repr

namespace App

/-- Rust `App::new` (main.rs lines 89-132). -/
def new : App :=
  { items := StatefulList.with_items [
      ("Item0", 1), ("Item1", 2), ("Item2", 1), ("Item3", 3),
      ("Item4", 1), ("Item5", 4), ("Item6", 1)]
    keybinds := [
      ("Quit", "q"), ("Event2", "INFO"), ("Event3", "CRITICAL"),
      ("Event4", "ERROR"), ("Event5", "INFO"), ("Event6", "INFO"),
      ("Event7", "WARNING"), ("Event8", "INFO"), ("Event9", "INFO"),
      ("Event10", "INFO"), ("Event11", "CRITICAL"), ("Event12", "INFO"),
      ("Event13", "INFO"), ("Event14", "INFO"), ("Event15", "INFO"),
      ("Event16", "INFO"), ("Event17", "ERROR"), ("Event18", "ERROR"),
      ("Event19", "INFO"), ("Event20", "INFO"), ("Event21", "WARNING"),
      ("Event22", "INFO"), ("Event23", "INFO"), ("Event24", "WARNING"),
      ("Event25", "INFO"), ("Event26", "INFO")]
    time := 0
    timing_status := TimerStatus.PAUSED
    ticks_with_no_key := 0 }

/-- Rust `App::space` (main.rs lines 134-139): whenever the status is not
`COUNTDOWN`, restart the countdown at 1500. -/
def space (a : App) : App :=
  if a.timing_status ≠ TimerStatus.COUNTDOWN then
    { a with time := 1500, timing_status := TimerStatus.COUNTDOWN }
  else a

/-- Rust `App::update_timer` (main.rs lines 141-161): phase-dependent counter
update, then key handling, then the 60-tick silence heuristic. -/
def update_timer (a : App) (key_pressed_in_tick : Bool) : App :=
  let a1 : App :=
    match a.timing_status with
    | TimerStatus.COUNTDOWN => { a with time := a.time - 1 }
    | TimerStatus.COUNTUP => { a with time := a.time + 1 }
    | TimerStatus.PAUSED => a
  if key_pressed_in_tick = true then
    { a1 with ticks_with_no_key := 0 }
  else if a1.timing_status ≠ TimerStatus.COUNTDOWN then a1
  else
    let a2 : App := { a1 with ticks_with_no_key := a1.ticks_with_no_key + 1 }
    if a2.ticks_with_no_key > 60 then
      { a2 with ticks_with_no_key := 0, time := 0,
                timing_status := TimerStatus.COUNTUP }
    else a2

end App

/-- The key codes `run_app` (main.rs lines 209-216) distinguishes:
space, `q`, Left, Down, Up, and everything else. -/
inductive Key where
  | space
  | q
  | left
  | down
  | up
  | other
  deriving DecidableEq, Repr

/-- One observable step of the `run_app` loop (main.rs lines 200-225):
either a key event is read inside the poll window, or the tick boundary
is reached and the timer advances. -/
inductive Event where
  | key (k : Key)
  | tick
  deriving DecidableEq, Repr

/-- The loop state of `run_app`: the `App` plus the per-tick
`key_pressed_in_tick` flag (main.rs line 199). -/
structure SchedState where
  app : App
  key_pressed_in_tick : Bool
  deriving DecidableEq, Repr

/-- Key dispatch in `run_app` (main.rs lines 207-217): the flag is set for
every key event, before the key code is matched.  The `q` arm returns from
`run_app` (the loop ends); its only state effect before returning is the
flag assignment.  `none` models a panic propagating out of
`StatefulList::next`/`previous`. -/
def dispatchKey (k : Key) (s : SchedState) : Option SchedState :=
  let s1 : SchedState := { s with key_pressed_in_tick := true }
  match k with
  | Key.space => some { s1 with app := s1.app.space }
  | Key.q => some s1
  | Key.left => some { s1 with app := { s1.app with items := s1.app.items.unselect } }
  | Key.down =>
    match s1.app.items.next with
    | some l => some { s1 with app := { s1.app with items := l } }
    | none => none
  | Key.up =>
    match s1.app.items.previous with
    | some l => some { s1 with app := { s1.app with items := l } }
    | none => none
  | Key.other => some s1

/-- One scheduler step: a key event dispatches (main.rs lines 206-218), a
tick boundary advances the timer and clears the flag (lines 219-224). -/
def schedStep (e : Event) (s : SchedState) : Option SchedState :=
  match e with
  | Event.key k => dispatchKey k s
  | Event.tick =>
    some { app := s.app.update_timer s.key_pressed_in_tick,
           key_pressed_in_tick := false }

/-- Run a sequence of scheduler steps. -/
def runEvents (evs : List Event) (s : SchedState) : Option SchedState :=
  match evs with
  | [] => some s
  | e :: es => (schedStep e s).bind (runEvents es)

/-- The scheduler state at the start of `run_app`: `App::new` and the flag
false (main.rs lines 174, 198-199). -/
def initSched : SchedState :=
  { app := App.new, key_pressed_in_tick := false }

/-- A scheduler state is reachable when some sequence of key events and
ticks produces it from the initial state. -/
def Reachable (s : SchedState) : Prop :=
  ∃ evs : List Event, runEvents evs initSched = some s

/-- The central-timer formatting, duplicated in `ui` (main.rs lines
271-277) and `draw_central_timer` (ui.rs lines 74-82): render `time` in
decimal, then patch a decimal point in by string length.  Rust
`String::insert` at index `len - 2` splits the string two bytes
before the end;
the digits are ASCII so byte and character positions agree. -/
def formatTime (time : Int) : String :=
  let s := toString time
  match s.length with
  | 0 => "0.00"
  | 1 => "0.0" ++ s
  | 2 => "0." ++ s
  | _ => s.take (s.length - 2) ++ "." ++ s.drop (s.length - 2)

/-- Iterate a fallible operation, propagating a panic. -/
def iterateO {α : Type} (f : α → Option α) : Nat → α → Option α
  | 0, a => some a
  | n + 1, a => (f a).bind (iterateO f n)

/-- On a selected in-range index, `next` moves to the successor modulo the
list length. -/
theorem next_some_eq {α : Type} (st : List α) (i : Nat) (hi : i < st.length) :
    StatefulList.next { state := some i, items := st } =
      some { state := some ((i + 1) % st.length), items := st } := by
  have hlen : st.length ≠ 0 := by omega
  unfold StatefulList.next
  simp only [hlen, if_false]
  by_cases hc : i ≥ st.length - 1
  · have hieq : i = st.length - 1 := by omega
    have : (i + 1) % st.length = 0 := by
      rw [hieq]
      have : st.length - 1 + 1 = st.length := by omega
      rw [this, Nat.mod_self]
    simp [hc, this]
  · have : (i + 1) % st.length = i + 1 := Nat.mod_eq_of_lt (by omega)
    simp [hc, this]

/-- Iterating `next` from an in-range index advances by the iteration count,
modulo the length. -/
theorem iterate_next {α : Type} (st : List α) (k : Nat) :
    ∀ i : Nat, i < st.length →
      iterateO StatefulList.next k { state := some i, items := st } =
        some { state := some ((i + k) % st.length), items := st } := by
  induction k with
  | zero =>
    intro i hi
    simp [iterateO, Nat.mod_eq_of_lt hi]
  | succ k ih =>
    intro i hi
    have hlen : 0 < st.length := by omega
    rw [iterateO, next_some_eq st i hi, Option.some_bind,
      ih ((i + 1) % st.length) (Nat.mod_lt _ hlen)]
    have : ((i + 1) % st.length + k) % st.length = (i + (k + 1)) % st.length := by
      rw [Nat.mod_add_mod]
      ring_nf
    rw [this]

/-- Claim C5, as stated, is false: on the empty list, `next()` from no
selection succeeds but selects index 0, which is out of range (the empty
list has no valid index), so the operation is neither a no-op nor an
explicit empty-collection signal; and from an existing selection `next()`
panics (underflow of `items.len() - 1`). -/
theorem c5_counterexample :
    StatefulList.next (StatefulList.with_items ([] : List Nat)) =
      some { state := some 0, items := [] } ∧
    ¬ (0 < ([] : List Nat).length) ∧
    StatefulList.next { state := some 0, items := ([] : List Nat) } = none := by
  refine ⟨by decide, by decide, by decide⟩

/-- Claim C5 (amended): on an empty list, `next()` and `previous()` from no
selection succeed and set the selection to index 0 — an out-of-range
selection, not a no-op and not an explicit empty-collection signal.  From
an existing selection, `next()` always panics and `previous()` panics
exactly when the selected index is 0 (the `usize` underflow computing
`len() - 1`); `previous()` from a nonzero selection just decrements,
leaving another out-of-range selection. -/
theorem c5_empty_list (α : Type) (i : Nat) :
    StatefulList.next (StatefulList.with_items ([] : List α)) =
      some { state := some 0, items := [] } ∧
    StatefulList.previous (StatefulList.with_items ([] : List α)) =
      some { state := some 0, items := [] } ∧
    StatefulList.next { state := some i, items := ([] : List α) } = none ∧
    StatefulList.previous { state := some 0, items := ([] : List α) } = none ∧
    StatefulList.previous { state := some (i + 1), items := ([] : List α) } =
      some { state := some i, items := [] } := by
  refine ⟨rfl, rfl, rfl, rfl, ?_⟩
  simp [StatefulList.previous]

/-- Claim C6, as stated, is false at selection "none": on the two-element
list, `next()` from no selection selects 0 and `previous()` then wraps to
the last index, so the round trip yields a selection of index 1 instead of
restoring "none". -/
theorem c6_counterexample :
    (StatefulList.next (StatefulList.with_items [10, 20])).bind StatefulList.previous =
      some { state := some 1, items := [10, 20] } ∧
    some ({ state := some 1, items := [10, 20] } : StatefulList Nat) ≠
      some (StatefulList.with_items [10, 20]) := by
  refine ⟨by decide, by decide⟩

/-- Claim C6 (amended): on a non-empty list, `previous()` inverts `next()`
on every valid selected index; only the selection state "none" is not
restored (the round trip turns it into a selection of the last index). -/
theorem c6_prev_next (α : Type) (l : StatefulList α) (i : Nat)
    (hsel : l.state = some i) (hi : i < l.items.length) :
    (StatefulList.next l).bind StatefulList.previous = some l := by
  obtain ⟨st, items⟩ := l
  simp only at hsel hi
  subst hsel
  rw [next_some_eq items i hi]
  simp only [Option.some_bind]
  unfold StatefulList.previous
  simp only
  by_cases hc : (i + 1) % items.length = 0
  · have hieq : i + 1 = items.length := by
      by_contra hne
      rw [Nat.mod_eq_of_lt (by omega)] at hc
      omega
    have hlen : ¬ (items.length = 0) := by omega
    rw [if_pos hc, if_neg hlen, show items.length - 1 = i by omega]
  · rw [if_neg hc]
    have hmod : (i + 1) % items.length = i + 1 := by
      rcases Nat.lt_or_ge (i + 1) items.length with h | h
      · exact Nat.mod_eq_of_lt h
      · have hieq : i + 1 = items.length := by omega
        rw [hieq, Nat.mod_self] at hc
        exact absurd rfl hc
    rw [hmod]
    simp

/-- Claim C7, as stated, is false: on the two-element list, calling
`next()` twice from no selection leaves the selection at index 1 (the last
index), not at index 0. -/
theorem c7_counterexample :
    iterateO StatefulList.next ([10, 20] : List Nat).length
        (StatefulList.with_items [10, 20]) =
      some { state := some 1, items := [10, 20] } ∧
    some ({ state := some 1, items := [10, 20] } : StatefulList Nat) ≠
      some ({ state := some 0, items := [10, 20] } : StatefulList Nat) := by
  refine ⟨by decide, by decide⟩

/-- Claim C7 (amended): on a non-empty list with no selection, the first
`next()` selects index 0 and each further call advances cyclically, so the
selection is back at index 0 after exactly `len(items) + 1` calls (after
`len(items)` calls it is at the last index). -/
theorem c7_cycle (α : Type) (items : List α) (h : items ≠ []) :
    iterateO StatefulList.next (items.length + 1) (StatefulList.with_items items) =
      some { state := some 0, items := items } := by
  have hlen : 0 < items.length := List.length_pos.mpr h
  rw [iterateO]
  have h0 : StatefulList.next (StatefulList.with_items items) =
      some { state := some 0, items := items } := rfl
  rw [h0, Option.some_bind, iterate_next items items.length 0 hlen]
  simp

/-- Witness for `c6_prev_next`: next-then-previous restores index 1 on a
three-element list. -/
theorem c6_prev_next_witness :
    (StatefulList.next { state := some 1, items := [10, 20, 30] }).bind
        StatefulList.previous =
      some { state := some 1, items := ([10, 20, 30] : List Nat) } :=
  c6_prev_next Nat { state := some 1, items := [10, 20, 30] } 1 rfl (by decide)

/-- Witness for `c7_cycle`: four `next()` calls on a three-element list
starting from no selection end at index 0. -/
theorem c7_cycle_witness :
    iterateO StatefulList.next 4 (StatefulList.with_items ([10, 20, 30] : List Nat)) =
      some { state := some 0, items := [10, 20, 30] } :=
  c7_cycle Nat [10, 20, 30] (by decide)

/-- Claim C9: the timer rendering maps 1500 to "15.00", 5 to "0.05" and
0 to "0.00". -/
theorem c9_format_examples :
    formatTime 1500 = "15.00" ∧ formatTime 5 = "0.05" ∧ formatTime 0 = "0.00" := by
  refine ⟨by decide, by decide, by decide⟩

/-- Claim C1, as stated, is false: from the initial Paused state, a
scheduler tick in which space is dispatched and the timer then advances
leaves `elapsed_ticks` at 1499, not 1500 — `App::space` sets `time` to
1500 at dispatch, and `update_timer` then decrements it because the phase
is already `COUNTDOWN` when the tick boundary runs. -/
theorem c1_counterexample :
    (runEvents [Event.key Key.space, Event.tick] initSched).map (fun s => s.app.time) ≠
      some 1500 ∧
    (runEvents [Event.key Key.space, Event.tick] initSched).map (fun s => s.app.time) =
      some 1499 := by
  refine ⟨by decide, by decide⟩

/-- Claim C1 (amended): for every state with phase Paused and
`silence_run = 0`, a single scheduler tick in which the primary key is
asserted (the key event is dispatched, then the timer advances) results
in the state (CountingDown, `elapsed_ticks = 1499`, `silence_run = 0`). -/
theorem c1_paused_key_tick (a : App)
    (hs : a.timing_status = TimerStatus.PAUSED)
    (hn : a.ticks_with_no_key = 0) :
    runEvents [Event.key Key.space, Event.tick]
        { app := a, key_pressed_in_tick := false } =
      some { app := { a with time := 1499,
                             timing_status := TimerStatus.COUNTDOWN,
                             ticks_with_no_key := 0 },
             key_pressed_in_tick := false } := by
  obtain ⟨it, kb, t, st, n⟩ := a
  simp only at hs hn
  subst hs hn
  simp [runEvents, schedStep, dispatchKey, App.space, App.update_timer]

/-- Witness for `c1_paused_key_tick` at the initial app state. -/
theorem c1_paused_key_tick_witness :
    runEvents [Event.key Key.space, Event.tick] initSched =
      some { app := { App.new with time := 1499,
                                   timing_status := TimerStatus.COUNTDOWN,
                                   ticks_with_no_key := 0 },
             key_pressed_in_tick := false } :=
  c1_paused_key_tick App.new rfl rfl

/-- A reachable CountingUp state used to refute claim C2: reachable, but
convenient to state directly since the claim quantifies over all
CountingUp states. -/
def countupApp : App :=
  { App.new with timing_status := TimerStatus.COUNTUP, time := 5 }

/-- Claim C2, as stated, is false: from a CountingUp state, a tick with
the key asserted does not keep counting up — `App::space` fires whenever
the status differs from `COUNTDOWN`, so it restarts the countdown. -/
theorem c2_counterexample :
    (runEvents [Event.key Key.space, Event.tick]
        { app := countupApp, key_pressed_in_tick := false }).map
        (fun s => s.app.timing_status) = some TimerStatus.COUNTDOWN ∧
    (runEvents [Event.key Key.space, Event.tick]
        { app := countupApp, key_pressed_in_tick := false }).map
        (fun s => s.app.timing_status) ≠ some TimerStatus.COUNTUP := by
  refine ⟨by decide, by decide⟩

/-- Claim C2 (amended): the start-countdown edge fires on a key dispatch
whenever the phase is not CountingDown — `silence_run` is never consulted
— so from Paused or CountingUp a key-asserted scheduler tick yields
(CountingDown, 1499, 0); only while already CountingDown does a
key-asserted tick leave the phase alone and simply continue the counter
(and reset `silence_run`). -/
theorem c2_restart_edge (a : App) :
    (a.timing_status ≠ TimerStatus.COUNTDOWN →
      runEvents [Event.key Key.space, Event.tick]
          { app := a, key_pressed_in_tick := false } =
        some { app := { a with time := 1499,
                               timing_status := TimerStatus.COUNTDOWN,
                               ticks_with_no_key := 0 },
               key_pressed_in_tick := false }) ∧
    (a.timing_status = TimerStatus.COUNTDOWN →
      runEvents [Event.key Key.space, Event.tick]
          { app := a, key_pressed_in_tick := false } =
        some { app := { a with time := a.time - 1,
                               ticks_with_no_key := 0 },
               key_pressed_in_tick := false }) := by
  obtain ⟨it, kb, t, st, n⟩ := a
  constructor
  · intro hs
    simp only at hs
    simp [runEvents, schedStep, dispatchKey, App.space, App.update_timer, hs]
  · intro hs
    simp only at hs
    subst hs
    simp [runEvents, schedStep, dispatchKey, App.space, App.update_timer]

/-- Witness for `c2_restart_edge` at a concrete CountingUp state. -/
theorem c2_restart_edge_witness :
    runEvents [Event.key Key.space, Event.tick]
        { app := countupApp, key_pressed_in_tick := false } =
      some { app := { countupApp with time := 1499,
                                      timing_status := TimerStatus.COUNTDOWN,
                                      ticks_with_no_key := 0 },
             key_pressed_in_tick := false } :=
  (c2_restart_edge countupApp).1 (by decide)

/-- Running a concatenation of event lists is running them in sequence. -/
theorem runEvents_append (l1 l2 : List Event) (s : SchedState) :
    runEvents (l1 ++ l2) s = (runEvents l1 s).bind (runEvents l2) := by
  induction l1 generalizing s with
  | nil => simp [runEvents]
  | cons e es ih =>
    simp only [List.cons_append, runEvents]
    cases schedStep e s with
    | none => simp
    | some s1 => simp [ih]

/-- A silent tick during CountingDown, below the threshold: decrement the
counter and extend the silence run. -/
theorem silent_tick (a : App)
    (hs : a.timing_status = TimerStatus.COUNTDOWN)
    (hn : a.ticks_with_no_key + 1 ≤ 60) :
    schedStep Event.tick { app := a, key_pressed_in_tick := false } =
      some { app := { a with time := a.time - 1,
                             ticks_with_no_key := a.ticks_with_no_key + 1 },
             key_pressed_in_tick := false } := by
  obtain ⟨it, kb, t, st, n⟩ := a
  simp only at hs hn
  subst hs
  simp [schedStep, App.update_timer]
  omega

/-- The 61st silent tick during CountingDown: the silence run passes the
threshold, so the phase flips to CountingUp at 0. -/
theorem flip_tick (a : App)
    (hs : a.timing_status = TimerStatus.COUNTDOWN)
    (hn : a.ticks_with_no_key = 60) :
    schedStep Event.tick { app := a, key_pressed_in_tick := false } =
      some { app := { a with time := 0,
                             timing_status := TimerStatus.COUNTUP,
                             ticks_with_no_key := 0 },
             key_pressed_in_tick := false } := by
  obtain ⟨it, kb, t, st, n⟩ := a
  simp only at hs hn
  subst hs hn
  simp [schedStep, App.update_timer]

/-- A run of silent ticks that stays at or below the 60-tick threshold
keeps counting down, decrementing by one per tick. -/
theorem silent_run (k : Nat) :
    ∀ a : App, a.timing_status = TimerStatus.COUNTDOWN →
      a.ticks_with_no_key + k ≤ 60 →
      runEvents (List.replicate k Event.tick) { app := a, key_pressed_in_tick := false } =
        some { app := { a with time := a.time - k,
                               ticks_with_no_key := a.ticks_with_no_key + k },
               key_pressed_in_tick := false } := by
  induction k with
  | zero =>
    intro a _ _
    obtain ⟨it, kb, t, st, n⟩ := a
    simp [runEvents]
  | succ k ih =>
    intro a hs hn
    rw [List.replicate_succ, runEvents,
      silent_tick a hs (by omega), Option.some_bind,
      ih _ (by simpa using hs) (by simpa using (by omega : a.ticks_with_no_key + 1 + k ≤ 60))]
    obtain ⟨it, kb, t, st, n⟩ := a
    simp only [Option.some.injEq, SchedState.mk.injEq, App.mk.injEq,
      eq_self_iff_true, true_and, and_true]
    omega

/-- Running a single event is one scheduler step. -/
theorem runEvents_single (e : Event) (s : SchedState) :
    runEvents [e] s = schedStep e s := by
  show (schedStep e s).bind (runEvents []) = schedStep e s
  cases schedStep e s <;> rfl

/-- From CountingDown with an empty silence run, 61 silent ticks flip the
phase to CountingUp at time 0. -/
theorem silent_61 (a : App)
    (hs : a.timing_status = TimerStatus.COUNTDOWN)
    (hn : a.ticks_with_no_key = 0) :
    runEvents (List.replicate 61 Event.tick) { app := a, key_pressed_in_tick := false } =
      some { app := { a with time := 0,
                             timing_status := TimerStatus.COUNTUP,
                             ticks_with_no_key := 0 },
             key_pressed_in_tick := false } := by
  have h60 := silent_run 60 a hs (by omega)
  have hrep : List.replicate 61 Event.tick =
      List.replicate 60 Event.tick ++ [Event.tick] := by
    rw [← List.replicate_succ']
  rw [hrep, runEvents_append, h60, Option.some_bind, runEvents_single]
  obtain ⟨it, kb, t, st, n⟩ := a
  simp only at hs hn
  subst hs hn
  simp [schedStep, App.update_timer]

/-- Claim C3: from CountingDown with `elapsed_ticks = e` and
`silence_run = 0`, 60 consecutive unasserted ticks leave the phase at
CountingDown with `elapsed_ticks = e - 60` (and silence run 60), and the
61st consecutive unasserted tick flips the phase to CountingUp with
`elapsed_ticks = 0` and `silence_run = 0`. -/
theorem c3_silent_countdown (a : App)
    (hs : a.timing_status = TimerStatus.COUNTDOWN)
    (hn : a.ticks_with_no_key = 0) :
    runEvents (List.replicate 60 Event.tick) { app := a, key_pressed_in_tick := false } =
      some { app := { a with time := a.time - 60, ticks_with_no_key := 60 },
             key_pressed_in_tick := false } ∧
    runEvents (List.replicate 61 Event.tick) { app := a, key_pressed_in_tick := false } =
      some { app := { a with time := 0,
                             timing_status := TimerStatus.COUNTUP,
                             ticks_with_no_key := 0 },
             key_pressed_in_tick := false } := by
  constructor
  · have h := silent_run 60 a hs (by omega)
    rw [h, hn]
    norm_num
  · exact silent_61 a hs hn

/-- A concrete CountingDown state for the claim C3 witness. -/
def countdownApp : App :=
  { App.new with timing_status := TimerStatus.COUNTDOWN, time := 100 }

/-- Witness for `c3_silent_countdown` at a CountingDown state with
`elapsed_ticks = 100`. -/
theorem c3_silent_countdown_witness :
    runEvents (List.replicate 60 Event.tick)
        { app := countdownApp, key_pressed_in_tick := false } =
      some { app := { countdownApp with time := 40, ticks_with_no_key := 60 },
             key_pressed_in_tick := false } ∧
    runEvents (List.replicate 61 Event.tick)
        { app := countdownApp, key_pressed_in_tick := false } =
      some { app := { countdownApp with time := 0,
                                        timing_status := TimerStatus.COUNTUP,
                                        ticks_with_no_key := 0 },
             key_pressed_in_tick := false } := by
  have h := c3_silent_countdown countdownApp rfl rfl
  refine ⟨?_, h.2⟩
  have h1 := h.1
  norm_num [countdownApp] at h1 ⊢
  exact h1

/-- The inductive invariant of the timer: outside CountingDown the counter
is nonnegative. -/
def TimerInv (a : App) : Prop :=
  a.timing_status ≠ TimerStatus.COUNTDOWN → 0 ≤ a.time

/-- Helper: `App::space` preserves the timer invariant. -/
theorem timerInv_space (a : App) (h : TimerInv a) : TimerInv a.space := by
  unfold App.space
  by_cases hs : a.timing_status ≠ TimerStatus.COUNTDOWN
  · rw [if_pos hs]
    intro hcontra
    exact absurd rfl hcontra
  · rw [if_neg hs]
    exact h

/-- Helper: `App::update_timer` preserves the timer invariant. -/
theorem timerInv_update (a : App) (b : Bool) (h : TimerInv a) :
    TimerInv (a.update_timer b) := by
  obtain ⟨it, kb, t, st, n⟩ := a
  have ht : st ≠ TimerStatus.COUNTDOWN → 0 ≤ t := h
  cases st with
  | COUNTDOWN =>
    cases b with
    | true =>
      intro hcontra
      exact absurd rfl hcontra
    | false =>
      by_cases hn : n + 1 > 60
      · have heq : App.update_timer (App.mk it kb t TimerStatus.COUNTDOWN n) false =
            App.mk it kb 0 TimerStatus.COUNTUP 0 := by
          simp [App.update_timer, hn]
        rw [heq]
        intro _
        exact le_refl 0
      · have heq : App.update_timer (App.mk it kb t TimerStatus.COUNTDOWN n) false =
            App.mk it kb (t - 1) TimerStatus.COUNTDOWN (n + 1) := by
          simp [App.update_timer, hn]
        rw [heq]
        intro hcontra
        exact absurd rfl hcontra
  | COUNTUP =>
    have h0 : 0 ≤ t := ht (by decide)
    cases b with
    | true =>
      intro _
      show 0 ≤ t + 1
      omega
    | false =>
      intro _
      show 0 ≤ t + 1
      omega
  | PAUSED =>
    have h0 : 0 ≤ t := ht (by decide)
    cases b with
    | true =>
      intro _
      exact h0
    | false =>
      intro _
      exact h0

/-- Key dispatch preserves the timer invariant: only `App::space` touches
the timer fields, and it preserves the invariant. -/
theorem timerInv_dispatch (k : Key) (s s' : SchedState)
    (hstep : dispatchKey k s = some s') (h : TimerInv s.app) :
    TimerInv s'.app := by
  cases k with
  | space =>
    simp only [dispatchKey] at hstep
    have heq := Option.some.inj hstep
    subst heq
    exact timerInv_space s.app h
  | q =>
    simp only [dispatchKey] at hstep
    have heq := Option.some.inj hstep
    subst heq
    exact h
  | left =>
    simp only [dispatchKey] at hstep
    have heq := Option.some.inj hstep
    subst heq
    exact h
  | down =>
    simp only [dispatchKey] at hstep
    cases hnext : s.app.items.next with
    | none =>
      rw [hnext] at hstep
      exact absurd hstep (by simp)
    | some l =>
      rw [hnext] at hstep
      have heq := Option.some.inj hstep
      subst heq
      exact h
  | up =>
    simp only [dispatchKey] at hstep
    cases hprev : s.app.items.previous with
    | none =>
      rw [hprev] at hstep
      exact absurd hstep (by simp)
    | some l =>
      rw [hprev] at hstep
      have heq := Option.some.inj hstep
      subst heq
      exact h
  | other =>
    simp only [dispatchKey] at hstep
    have heq := Option.some.inj hstep
    subst heq
    exact h

/-- Every scheduler step preserves the timer invariant. -/
theorem timerInv_step (e : Event) (s s' : SchedState)
    (hstep : schedStep e s = some s') (h : TimerInv s.app) :
    TimerInv s'.app := by
  cases e with
  | key k => exact timerInv_dispatch k s s' hstep h
  | tick =>
    simp only [schedStep] at hstep
    have heq := Option.some.inj hstep
    subst heq
    exact timerInv_update s.app s.key_pressed_in_tick h

/-- Every event run preserves the timer invariant. -/
theorem timerInv_run (evs : List Event) :
    ∀ s s' : SchedState, runEvents evs s = some s' → TimerInv s.app →
      TimerInv s'.app := by
  induction evs with
  | nil =>
    intro s s' hrun h
    have heq := Option.some.inj hrun
    subst heq
    exact h
  | cons e es ih =>
    intro s s' hrun h
    simp only [runEvents] at hrun
    cases hstep : schedStep e s with
    | none =>
      rw [hstep] at hrun
      exact absurd hrun (by simp)
    | some s1 =>
      rw [hstep, Option.some_bind] at hrun
      exact ih s1 s' hrun (timerInv_step e s s1 hstep h)

/-- Every reachable scheduler state satisfies the timer invariant. -/
theorem reachable_timerInv (s : SchedState) (hr : Reachable s) :
    TimerInv s.app := by
  obtain ⟨evs, hrun⟩ := hr
  exact timerInv_run evs initSched s hrun (fun _ => le_refl 0)

/-- Claim C4 (amended): in every reachable scheduler state, if the phase
is not CountingDown then `elapsed_ticks` is nonnegative.  (The claim for
the CountingDown phase itself is refuted by `c4_counterexample`.) -/
theorem c4_nonneg_outside_countdown (s : SchedState) (hr : Reachable s)
    (hs : s.app.timing_status ≠ TimerStatus.COUNTDOWN) : 0 ≤ s.app.time :=
  reachable_timerInv s hr hs

/-- Witness for `c4_nonneg_outside_countdown` at the initial state. -/
theorem c4_nonneg_outside_countdown_witness : 0 ≤ initSched.app.time :=
  c4_nonneg_outside_countdown initSched ⟨[], rfl⟩ (by decide)

/-- Dispatching space and then reaching a tick boundary, during
CountingDown, just decrements the counter and clears the silence run:
`App::space` is a no-op while counting down, but the dispatched key still
sets the per-tick flag. -/
theorem held_pair_tick (a : App)
    (hs : a.timing_status = TimerStatus.COUNTDOWN) :
    runEvents [Event.key Key.space, Event.tick]
        { app := a, key_pressed_in_tick := false } =
      some { app := { a with time := a.time - 1, ticks_with_no_key := 0 },
             key_pressed_in_tick := false } := by
  obtain ⟨it, kb, t, st, n⟩ := a
  simp only at hs
  subst hs
  simp [runEvents, schedStep, dispatchKey, App.space, App.update_timer]

/-- Holding the key during CountingDown: each dispatch-then-tick pair
decrements the counter by one and the countdown never flips to CountingUp,
no matter how many pairs occur. -/
theorem held_run (n : Nat) :
    ∀ a : App, a.timing_status = TimerStatus.COUNTDOWN →
      a.ticks_with_no_key = 0 →
      runEvents (List.flatten (List.replicate n [Event.key Key.space, Event.tick]))
          { app := a, key_pressed_in_tick := false } =
        some { app := { a with time := a.time - n, ticks_with_no_key := 0 },
               key_pressed_in_tick := false } := by
  induction n with
  | zero =>
    intro a _ hn
    obtain ⟨it, kb, t, st, n0⟩ := a
    simp only at hn
    subst hn
    simp [runEvents]
  | succ n ih =>
    intro a hs hn
    rw [List.replicate_succ, List.flatten_cons, runEvents_append,
      held_pair_tick a hs, Option.some_bind,
      ih _ (by simpa using hs) rfl]
    obtain ⟨it, kb, t, st, n0⟩ := a
    simp only [Option.some.injEq, SchedState.mk.injEq, App.mk.injEq,
      eq_self_iff_true, true_and, and_true]
    omega

/-- The key-press dispatched once and then 1500 more dispatch-tick pairs:
a space bar held for just over 15 seconds. -/
def negEvents : List Event :=
  [Event.key Key.space, Event.tick] ++
    List.flatten (List.replicate 1500 [Event.key Key.space, Event.tick])

/-- The scheduler state after `negEvents`: the countdown has crossed zero. -/
def negApp : App :=
  { App.new with time := -1, timing_status := TimerStatus.COUNTDOWN,
                 ticks_with_no_key := 0 }

/-- The state of the app one full dispatch-plus-tick after startup. -/
def firstPressApp : App :=
  { App.new with time := 1499, timing_status := TimerStatus.COUNTDOWN,
                 ticks_with_no_key := 0 }

/-- The first space dispatch followed by the first tick boundary starts
the countdown at 1499. -/
theorem first_press :
    runEvents [Event.key Key.space, Event.tick] initSched =
      some { app := firstPressApp, key_pressed_in_tick := false } := by
  decide

/-- Claim C4, as stated, is false: the state with
`elapsed_ticks = -1` (phase CountingDown) is reachable from the initial
state — dispatching space before every tick for 1501 ticks keeps the
countdown running past zero, because the silence-run release heuristic
never fires while the key keeps arriving. -/
theorem c4_counterexample :
    Reachable { app := negApp, key_pressed_in_tick := false } ∧
      negApp.time < 0 := by
  constructor
  · refine ⟨negEvents, ?_⟩
    unfold negEvents
    rw [runEvents_append, first_press, Option.some_bind,
      held_run 1500 firstPressApp rfl rfl]
    simp only [negApp, firstPressApp, Option.some.injEq, SchedState.mk.injEq,
      App.mk.injEq, eq_self_iff_true, true_and, and_true]
    norm_num
  · decide

/-- Claim C10: in every reachable scheduler state with phase CountingUp,
`elapsed_ticks` is nonnegative: the transition into CountingUp sets the
counter to 0, and while in CountingUp it only increments. -/
theorem c10_countup_nonneg (s : SchedState) (hr : Reachable s)
    (hs : s.app.timing_status = TimerStatus.COUNTUP) : 0 ≤ s.app.time :=
  reachable_timerInv s hr (by rw [hs]; decide)

/-- Events reaching a CountingUp state: start the countdown, then stay
silent for 61 ticks. -/
def upEvents : List Event :=
  [Event.key Key.space, Event.tick] ++ List.replicate 61 Event.tick

/-- The app state after `upEvents`: counting up from zero. -/
def upApp : App :=
  { App.new with time := 0, timing_status := TimerStatus.COUNTUP,
                 ticks_with_no_key := 0 }

/-- Running `upEvents` from startup lands in `upApp`. -/
theorem reach_up :
    runEvents upEvents initSched = some { app := upApp, key_pressed_in_tick := false } := by
  unfold upEvents
  rw [runEvents_append, first_press, Option.some_bind,
    silent_61 firstPressApp rfl rfl]
  rfl

/-- Witness for `c10_countup_nonneg` at the reachable CountingUp state
`upApp`. -/
theorem c10_countup_nonneg_witness : 0 ≤ upApp.time :=
  c10_countup_nonneg { app := upApp, key_pressed_in_tick := false }
    ⟨upEvents, reach_up⟩ rfl

/-- Claim C8, as stated, is false: a navigation key (Up) and an
unrecognized key both set the per-tick "key asserted" flag, because
`run_app` sets `key_pressed_in_tick = true` for every key event before
matching the key code. -/
theorem c8_counterexample :
    (dispatchKey Key.up initSched).map (fun s => s.key_pressed_in_tick) =
      some true ∧
    (dispatchKey Key.other initSched).map (fun s => s.key_pressed_in_tick) =
      some true := by
  refine ⟨by decide, by decide⟩

/-- Claim C8 (amended): every key event sets the per-tick "key asserted"
flag consumed by the timer — the flag is assigned before the key code is
examined, so navigation keys, unrecognized keys, and the quit key (whose
dispatch ends the loop) all set it, not only space. -/
theorem c8_any_key_sets_flag (k : Key) (s s' : SchedState)
    (h : dispatchKey k s = some s') : s'.key_pressed_in_tick = true := by
  cases k with
  | space =>
    simp only [dispatchKey] at h
    have heq := Option.some.inj h
    subst heq
    rfl
  | q =>
    simp only [dispatchKey] at h
    have heq := Option.some.inj h
    subst heq
    rfl
  | left =>
    simp only [dispatchKey] at h
    have heq := Option.some.inj h
    subst heq
    rfl
  | down =>
    simp only [dispatchKey] at h
    cases hnext : s.app.items.next with
    | none =>
      rw [hnext] at h
      exact absurd h (by simp)
    | some l =>
      rw [hnext] at h
      have heq := Option.some.inj h
      subst heq
      rfl
  | up =>
    simp only [dispatchKey] at h
    cases hprev : s.app.items.previous with
    | none =>
      rw [hprev] at h
      exact absurd h (by simp)
    | some l =>
      rw [hprev] at h
      have heq := Option.some.inj h
      subst heq
      rfl
  | other =>
    simp only [dispatchKey] at h
    have heq := Option.some.inj h
    subst heq
    rfl

/-- The scheduler state after dispatching Down at startup. -/
def downDispatched : SchedState :=
  { app := { App.new with
               items := { state := some 0, items := App.new.items.items } },
    key_pressed_in_tick := true }

/-- Witness for `c8_any_key_sets_flag`: dispatching Down at startup sets
the flag. -/
theorem c8_any_key_sets_flag_witness :
    dispatchKey Key.down initSched = some downDispatched ∧
    downDispatched.key_pressed_in_tick = true :=
  ⟨by decide, c8_any_key_sets_flag Key.down initSched downDispatched (by decide)⟩
